import Mathlib

/-!
Verification of the HTTP/1.1 server in `src/app/main.py`.

Python strings are modelled as lists of characters (`Str`); Python dicts
(`dict[str, str]`) as insertion-ordered association lists with
overwrite-in-place assignment, which is exactly CPython's observable
behaviour for iteration order and key update.  Machine-level concerns the
claims do not touch (UTF-8 socket decoding, 4096-byte read chunking) are
outside the model: the connection loop consumes a stream of already-decoded
buffers, one complete message per `recv`, as the source itself assumes.
The filesystem is modelled as an explicit map from full paths to file
contents threaded through the handlers that touch it.
-/

namespace HTTPServer

/-- A Python `str`: a sequence of characters. -/
abbrev Str := List Char

/-- A Python `dict[str, str]`: insertion-ordered key/value pairs. -/
abbrev Headers := List (Str × Str)

/-- The filesystem visible to the `/files/*` handlers: full path ↦ contents. -/
abbrev FS := List (Str × Str)

/-- Characters of a Lean string literal, used to write concrete `Str` values. -/
def chars (s : String) : Str := s.data

/-- Python dict lookup `d.get(k)`: value of the entry with key `k`, if any. -/
def hget : Headers → Str → Option Str
  | [], _ => none
  | (k', v') :: rest, k => if k' = k then some v' else hget rest k

/-- Python dict assignment `d[k] = v`: overwrite in place, else append. -/
def hset : Headers → Str → Str → Headers
  | [], k, v => [(k, v)]
  | (k', v') :: rest, k, v =>
      if k' = k then (k', v) :: rest else (k', v') :: hset rest k v

/-- Python `base.update(l)`: assign every pair of `l` into `base` in order. -/
def hupdate (base : Headers) (l : Headers) : Headers :=
  l.foldl (fun h p => hset h p.1 p.2) base

/-- The keys of a dict, in insertion order. -/
def keys (l : Headers) : List Str := l.map Prod.fst

/-- Python `s.startswith(pre)`. -/
def pyStartswith : Str → Str → Bool
  | _, [] => true
  | [], _ :: _ => false
  | c :: s, p :: ps => c = p && pyStartswith s ps

/-- Python `s.split(sep)` for a one-character separator `a`.
`acc` holds the (reversed) characters of the fragment being accumulated. -/
def splitChar (a : Char) : Str → Str → List Str
  | acc, [] => [acc.reverse]
  | acc, c :: rest =>
      if c = a then acc.reverse :: splitChar a [] rest
      else splitChar a (c :: acc) rest

/-- Python `s.split(sep)` for a two-character separator `a b`
(left-to-right scan, non-overlapping occurrences). -/
def splitPair (a b : Char) : Str → Str → List Str
  | acc, [] => [acc.reverse]
  | acc, [c] => [(c :: acc).reverse]
  | acc, c :: d :: rest =>
      if c = a ∧ d = b then acc.reverse :: splitPair a b [] rest
      else splitPair a b (c :: acc) (d :: rest)

/-- Python `s.split(sep, 1)` for a two-character separator `a b`:
the parts before and after the first occurrence, if one exists. -/
def splitFirstPair (a b : Char) : Str → Str → Option (Str × Str)
  | _, [] => none
  | _, [_] => none
  | acc, c :: d :: rest =>
      if c = a ∧ d = b then some (acc.reverse, rest)
      else splitFirstPair a b (c :: acc) (d :: rest)

/-- Python `s.split("\r\n\r\n", 1)`: the parts before and after the first
occurrence of the four-character header/body separator, if one exists. -/
def splitFirstCRLF2 : Str → Str → Option (Str × Str)
  | _, [] => none
  | _, [_] => none
  | _, [_, _] => none
  | _, [_, _, _] => none
  | acc, c₁ :: c₂ :: c₃ :: c₄ :: rest =>
      if c₁ = '\r' ∧ c₂ = '\n' ∧ c₃ = '\r' ∧ c₄ = '\n' then some (acc.reverse, rest)
      else splitFirstCRLF2 (c₁ :: acc) (c₂ :: c₃ :: c₄ :: rest)

/-- Whether the two-character sequence `a b` occurs in `s`. -/
def hasPair (a b : Char) : Str → Bool
  | [] => false
  | [_] => false
  | c :: d :: rest => (decide (c = a) && decide (d = b)) || hasPair a b (d :: rest)

/-- The Python whitespace characters relevant to `str.strip()`. -/
def pyIsSpace (c : Char) : Bool :=
  c = ' ' || c = '\t' || c = '\n' || c = '\r' || c = '\x0b' || c = '\x0c'

/-- Python `s.strip()`. -/
def pyStrip (s : Str) : Str :=
  ((s.dropWhile pyIsSpace).reverse.dropWhile pyIsSpace).reverse

/-- Python `s.lower()` (ASCII case folding, which is all the source compares). -/
def pyLower (s : Str) : Str := s.map Char.toLower

/-- Python `str(n)` for a non-negative integer. -/
def pyStr (n : Nat) : Str := (Nat.repr n).data

/-- The number of bytes of the UTF-8 encoding of `s` (what
`s.encode("utf-8")` produces on the wire). -/
def utf8Len (s : Str) : Nat := s.foldl (fun n c => n + c.utf8Size) 0

/-- Constant `SERVER_ACCEPTED_ENCODINGS = ["gzip"]` (main.py line 7). -/
def SERVER_ACCEPTED_ENCODINGS : List Str := [chars "gzip"]

/-- Model of `HTTPRequest` (main.py lines 9-15). -/
structure HTTPRequest where
  method : Str
  path : Str
  protocol : Str
  headers : Headers
  body : Str
deriving DecidableEq

/-- Model of `HTTPResponse` (main.py lines 17-23). -/
structure HTTPResponse where
  status_code : Nat
  protocol : Str
  headers : Headers
  body : Str
  message : Str
deriving DecidableEq

/-- Model of `HTTPResponse.handle_compression` (main.py lines 25-26): returns the body
unchanged, whatever `compression_method` argument is passed. -/
def handle_compression (r : HTTPResponse) (_compression_method : Str) : Str :=
  r.body

/-- Model of `HTTPResponse.build_response`'s header loop (main.py lines 36-38):
`response += f"{key}: {value}\r\n"` over the dict items in order. -/
def joinHeaders (hs : Headers) : Str :=
  hs.foldl (fun acc p => acc ++ p.1 ++ chars ": " ++ p.2 ++ chars "\r\n") []

/-- Model of `HTTPResponse.build_response` (main.py lines 28-45).  Mirrors the source
branch by branch, including the quirks: `compression_method` is only
consulted for truthiness (Python's `if compression_method`, false for an
empty string), and `handle_compression` is called with `self.body` as its
argument. -/
def build_response (r : HTTPResponse) : Str :=
  let response := r.protocol ++ chars " " ++ pyStr r.status_code ++ chars " "
      ++ r.message ++ chars "\r\n"
  let compression_method : Option Str :=
    if r.headers ≠ [] ∧ (hget r.headers (chars "Content-Encoding")).isSome
    then hget r.headers (chars "Content-Encoding") else none
  let response := if r.headers ≠ [] then response ++ joinHeaders r.headers else response
  let response := response ++ chars "\r\n"
  if r.body ≠ [] then
    response ++ (match compression_method with
      | some cm => if cm ≠ [] then handle_compression r r.body else r.body
      | none => r.body)
  else response

/-- One step of the request-header scan in `generate_response_headers`
(main.py lines 62-70): `Accept-Encoding` derives `Content-Encoding` from the
first client token found in `SERVER_ACCEPTED_ENCODINGS` (the `break`), the
value being re-read from the dict as the source does; a `Connection` entry is
copied verbatim. -/
def negotiate_step (request_headers : Headers) (hs : Headers) (kv : Str × Str) :
    Headers :=
  if kv.1 = chars "Accept-Encoding" then
    match hget request_headers (chars "Accept-Encoding") with
    | some ae =>
        match ((splitChar ',' [] ae).map pyStrip).find?
            (fun e => SERVER_ACCEPTED_ENCODINGS.contains e) with
        | some enc => hset hs (chars "Content-Encoding") enc
        | none => hs
    | none => hs
  else if kv.1 = chars "Connection" then hset hs kv.1 kv.2
  else hs

/-- Model of `generate_response_headers` (main.py lines 47-72). -/
def generate_response_headers (request_headers : Headers)
    (additional_headers : Headers) : Headers :=
  if request_headers = [] ∧ additional_headers = [] then []
  else
    let headers := hupdate [] additional_headers
    if request_headers = [] then headers
    else request_headers.foldl (negotiate_step request_headers) headers

/-- Model of `request.split("\r\n")[0]` (main.py line 97); the split never yields an
empty list, so the default is never consulted. -/
def firstLineOf (request : Str) : Str := (splitPair '\r' '\n' [] request).headD []

/-- Model of `extract_request_info_from_request` (main.py lines 96-101): the first
three space-separated tokens of the first line; `none` models the
`IndexError` raised when fewer than three exist. -/
def extract_request_info_from_request (request : Str) :
    Option (Str × Str × Str) :=
  match splitChar ' ' [] (firstLineOf request) with
  | m :: p :: pr :: _ => some (m, p, pr)
  | _ => none

/-- The header loop of `extract_headers_from_request` (main.py lines 105-110)
over the already-split lines: stop at the first empty line; each line is
`key, value = line.split(": ", 1)`, `none` modelling the `ValueError` raised
when the separator is absent. -/
def headerLoop : List Str → Headers → Option Headers
  | [], hs => some hs
  | line :: rest, hs =>
      if line = [] then some hs
      else
        match splitFirstPair ':' ' ' [] line with
        | some (k, v) => headerLoop rest (hset hs k v)
        | none => none

/-- Model of `extract_headers_from_request` (main.py lines 103-111). -/
def extract_headers_from_request (request : Str) : Option Headers :=
  headerLoop ((splitPair '\r' '\n' [] request).drop 1) []

/-- Model of `extract_body_from_request` (main.py lines 113-114):
`request.split("\r\n\r\n", 1)[1] if "\r\n\r\n" in request else ""`. -/
def extract_body_from_request (request : Str) : Str :=
  match splitFirstCRLF2 [] request with
  | some (_, after) => after
  | none => []

/-- Model of `extract_http_request_from_request` (main.py lines 74-78); the request
line is parsed first, so its failure pre-empts header parsing, as in the
source's execution order. -/
def extract_http_request_from_request (request : Str) : Option HTTPRequest :=
  match extract_request_info_from_request request with
  | none => none
  | some (m, p, pr) =>
      match extract_headers_from_request request with
      | none => none
      | some hs => some ⟨m, p, pr, hs, extract_body_from_request request⟩

/-- Model of `make_response` (main.py lines 80-94); Python's defaults
(`headers=None → {}`, `body=""`, `protocol="HTTP/1.1"`) are passed
explicitly by every modelled call site. -/
def make_response (status_code : Nat) (message : Str) (headers : Headers)
    (body : Str) (protocol : Str) : HTTPResponse :=
  ⟨status_code, protocol, headers, body, message⟩

/-- Model of `handle_echo` (main.py lines 116-129). -/
def handle_echo (http_request : HTTPRequest) : HTTPResponse :=
  let message := http_request.path.drop (chars "/echo/").length
  make_response 200 (chars "OK")
    (generate_response_headers http_request.headers
      [(chars "Content-Type", chars "text/plain"),
       (chars "Content-Length", pyStr message.length)])
    message (chars "HTTP/1.1")

/-- Model of `handle_user_agent` (main.py lines 131-144). -/
def handle_user_agent (http_request : HTTPRequest) : HTTPResponse :=
  let user_agent_header :=
    (hget http_request.headers (chars "User-Agent")).getD (chars "Unknown")
  make_response 200 (chars "OK")
    (generate_response_headers http_request.headers
      [(chars "Content-Type", chars "text/plain"),
       (chars "Content-Length", pyStr user_agent_header.length)])
    user_agent_header (chars "HTTP/1.1")

/-- Model of `handle_get_files` (main.py lines 146-165); `open(..., "r")` is the
filesystem read, `FileNotFoundError` the `none` case. -/
def handle_get_files (http_request : HTTPRequest) (directory : Str) (fs : FS) :
    HTTPResponse :=
  let filename := http_request.path.drop (chars "/files/").length
  let full_path := directory ++ chars "/" ++ filename
  match hget fs full_path with
  | some content =>
      make_response 200 (chars "OK")
        (generate_response_headers http_request.headers
          [(chars "Content-Type", chars "application/octet-stream"),
           (chars "Content-Length", pyStr content.length)])
        content (chars "HTTP/1.1")
  | none =>
      make_response 404 (chars "Not Found")
        (generate_response_headers http_request.headers []) [] (chars "HTTP/1.1")

/-- Model of `handle_post_files` (main.py lines 167-173); `open(..., "w")` plus
`f.write` is the overwriting filesystem update. -/
def handle_post_files (http_request : HTTPRequest) (directory : Str) (fs : FS) :
    HTTPResponse × FS :=
  let filename := http_request.path.drop (chars "/files/").length
  let full_path := directory ++ chars "/" ++ filename
  (make_response 201 (chars "Created")
      (generate_response_headers http_request.headers []) [] (chars "HTTP/1.1"),
   hset fs full_path http_request.body)

/-- Model of `handle_files` (main.py lines 175-179). -/
def handle_files (http_request : HTTPRequest) (directory : Str) (fs : FS) :
    HTTPResponse × FS :=
  if http_request.method = chars "GET" then (handle_get_files http_request directory fs, fs)
  else handle_post_files http_request directory fs

/-- Model of `handle_root` (main.py lines 181-182). -/
def handle_root (http_request : HTTPRequest) : HTTPResponse :=
  make_response 200 (chars "OK")
    (generate_response_headers http_request.headers []) [] (chars "HTTP/1.1")

/-- The routing chain of `handle_client` (main.py lines 210-219). -/
def route (directory : Str) (fs : FS) (http_request : HTTPRequest) :
    HTTPResponse × FS :=
  if pyStartswith http_request.path (chars "/echo/") then (handle_echo http_request, fs)
  else if http_request.path = chars "/user-agent" then (handle_user_agent http_request, fs)
  else if pyStartswith http_request.path (chars "/files/") then
    handle_files http_request directory fs
  else if http_request.path = chars "/" then (handle_root http_request, fs)
  else
    (make_response 404 (chars "Not Found")
      (generate_response_headers http_request.headers []) [] (chars "HTTP/1.1"), fs)

/-- Model of the `while True` loop of `handle_client` (main.py lines 184-226) over a
stream of received buffers, returning the wire bytes written to the socket,
in order.  An empty buffer is `recv` returning no bytes (peer closed); a
parse failure propagates to the `finally`, closing the connection with
nothing sent for that request; otherwise the response is sent and the loop
continues unless the inbound request said `Connection: close`
(case-insensitively, main.py line 208). -/
def handle_client_loop (directory : Str) : FS → List Str → List Str
  | _, [] => []
  | fs, request :: rest =>
      if request = [] then []
      else
        match extract_http_request_from_request request with
        | none => []
        | some http_request =>
            let close_connection :=
              pyLower ((hget http_request.headers (chars "Connection")).getD [])
                = chars "close"
            let result := route directory fs http_request
            build_response result.1 ::
              (if close_connection then []
               else handle_client_loop directory result.2 rest)

/-! ## Dictionary lemmas -/

theorem hget_hset (hs : Headers) (k v k₂ : Str) :
    hget (hset hs k v) k₂ = if k₂ = k then some v else hget hs k₂ := by
  induction hs with
  | nil =>
      by_cases h : k₂ = k
      · simp [hset, hget, h]
      · simp [hset, hget, h, Ne.symm h]
  | cons p rest ih =>
      obtain ⟨k', v'⟩ := p
      simp only [hset]
      by_cases h1 : k' = k
      · subst h1
        simp only [if_pos rfl, hget]
        by_cases h2 : k' = k₂
        · subst h2
          simp
        · simp [h2, Ne.symm h2]
      · simp only [if_neg h1, hget]
        by_cases h2 : k' = k₂
        · subst h2
          simp [h1]
        · simp [h2, ih]

theorem hget_append (xs ys : Headers) (k : Str) :
    hget (xs ++ ys) k =
      match hget xs k with
      | some v => some v
      | none => hget ys k := by
  induction xs with
  | nil => simp [hget]
  | cons p rest ih =>
      obtain ⟨k', v'⟩ := p
      by_cases h : k' = k <;> simp [hget, h, ih]

theorem hget_none_iff (l : Headers) (k : Str) :
    hget l k = none ↔ k ∉ keys l := by
  induction l with
  | nil => simp [hget, keys]
  | cons p rest ih =>
      obtain ⟨k', v'⟩ := p
      by_cases h : k' = k
      · subst h
        simp [hget, keys]
      · simp [hget, keys, h, Ne.symm h, ih]

theorem hget_some_mem (l : Headers) (k v : Str) (h : hget l k = some v) :
    (k, v) ∈ l := by
  induction l with
  | nil => simp [hget] at h
  | cons p rest ih =>
      obtain ⟨k', v'⟩ := p
      by_cases hk : k' = k
      · subst hk
        simp [hget] at h
        simp [h]
      · simp [hget, hk] at h
        exact List.mem_cons_of_mem _ (ih h)

theorem hget_isSome_iff (l : Headers) (k : Str) :
    (hget l k).isSome = true ↔ k ∈ keys l := by
  rcases hh : hget l k with _ | v
  · simp [(hget_none_iff l k).mp hh]
  · simp only [Option.isSome_some, true_iff]
    exact List.mem_map_of_mem Prod.fst (hget_some_mem l k v hh)

theorem hget_hupdate (l base : Headers) (k : Str) :
    hget (hupdate base l) k =
      match hget l.reverse k with
      | some v => some v
      | none => hget base k := by
  induction l generalizing base with
  | nil => simp [hupdate, hget]
  | cons p rest ih =>
      obtain ⟨k', v'⟩ := p
      have step : hupdate base ((k', v') :: rest) = hupdate (hset base k' v') rest := rfl
      rw [step, ih, List.reverse_cons, hget_append]
      rcases h1 : hget rest.reverse k with _ | w
      · simp only [h1]
        rw [hget_hset]
        by_cases h : k = k'
        · subst h
          simp [hget]
        · simp [hget, h, Ne.symm h]
      · simp [h1]

theorem hget_mem_of_nodup (l : Headers) (k v : Str) (hnd : (keys l).Nodup)
    (hmem : (k, v) ∈ l) : hget l k = some v := by
  induction l with
  | nil => cases hmem
  | cons p rest ih =>
      obtain ⟨k', v'⟩ := p
      simp only [keys, List.map_cons, List.nodup_cons] at hnd
      rcases List.mem_cons.mp hmem with h | h
      · injection h with hk hv
        subst hk
        subst hv
        simp [hget]
      · have hk' : ¬ k' = k := by
          intro hh
          subst hh
          exact hnd.1 (List.mem_map_of_mem Prod.fst h)
        simp [hget, hk', ih hnd.2 h]

theorem keys_hset (hs : Headers) (k v : Str) :
    keys (hset hs k v) = if k ∈ keys hs then keys hs else keys hs ++ [k] := by
  induction hs with
  | nil => simp [hset, keys]
  | cons p rest ih =>
      obtain ⟨k', v'⟩ := p
      by_cases h : k' = k
      · subst h
        simp [hset, keys]
      · have hk : ¬ k = k' := Ne.symm h
        simp only [hset, if_neg h, keys, List.map_cons] at ih ⊢
        rw [ih]
        by_cases hmem : k ∈ List.map Prod.fst rest
        · simp [List.mem_cons, hk, hmem]
        · simp [List.mem_cons, hk, hmem]

theorem nodup_keys_hset (hs : Headers) (k v : Str) (hnd : (keys hs).Nodup) :
    (keys (hset hs k v)).Nodup := by
  rw [keys_hset]
  by_cases h : k ∈ keys hs
  · simpa [h]
  · rw [if_neg h]
    refine List.Nodup.append hnd (List.nodup_singleton k) ?_
    intro a ha hak
    simp only [List.mem_singleton] at hak
    subst hak
    exact h ha

theorem hget_reverse_of_nodup (l : Headers) (k : Str) (hnd : (keys l).Nodup) :
    hget l.reverse k = hget l k := by
  have hndr : (keys l.reverse).Nodup := by
    simpa [keys, List.map_reverse] using (List.nodup_reverse).mpr hnd
  rcases h : hget l k with _ | v
  · rw [(hget_none_iff l.reverse k).mpr]
    intro hmem
    exact (hget_none_iff l k).mp h (by simpa [keys, List.map_reverse] using hmem)
  · exact hget_mem_of_nodup l.reverse k v hndr
      (List.mem_reverse.mpr (hget_some_mem l k v h))

/-! ## Content-negotiation lemmas -/

/-- The `Content-Encoding` value the request-header scan derives: the first
trimmed `Accept-Encoding` token that the server supports, if any. -/
def derivedEncoding (req : Headers) : Option Str :=
  match hget req (chars "Accept-Encoding") with
  | some ae =>
      ((splitChar ',' [] ae).map pyStrip).find?
        (fun e => SERVER_ACCEPTED_ENCODINGS.contains e)
  | none => none

theorem negotiate_step_other (req hs : Headers) (kv : Str × Str) (k : Str)
    (hCE : k ≠ chars "Content-Encoding") (hConn : k ≠ chars "Connection") :
    hget (negotiate_step req hs kv) k = hget hs k := by
  obtain ⟨k', w⟩ := kv
  unfold negotiate_step
  dsimp only
  by_cases h1 : k' = chars "Accept-Encoding"
  · rw [if_pos h1]
    cases hae : hget req (chars "Accept-Encoding") with
    | none => simp only [hae]
    | some ae =>
        simp only [hae]
        cases hfind : ((splitChar ',' [] ae).map pyStrip).find?
            (fun e => SERVER_ACCEPTED_ENCODINGS.contains e) with
        | none => simp only [hfind]
        | some enc =>
            simp only [hfind]
            rw [hget_hset, if_neg hCE]
  · rw [if_neg h1]
    by_cases h2 : k' = chars "Connection"
    · rw [if_pos h2, hget_hset, if_neg (h2 ▸ hConn)]
    · rw [if_neg h2]

theorem negotiate_step_CE_not (req hs : Headers) (kv : Str × Str)
    (h1 : kv.1 ≠ chars "Accept-Encoding") :
    hget (negotiate_step req hs kv) (chars "Content-Encoding") =
      hget hs (chars "Content-Encoding") := by
  obtain ⟨k', w⟩ := kv
  unfold negotiate_step
  dsimp only at h1 ⊢
  rw [if_neg h1]
  by_cases h2 : k' = chars "Connection"
  · subst h2
    rw [if_pos rfl, hget_hset,
      if_neg (by decide : ¬ chars "Content-Encoding" = chars "Connection")]
  · rw [if_neg h2]

theorem foldl_negotiate_other (req : Headers) (l : List (Str × Str)) (hs : Headers)
    (k : Str) (hCE : k ≠ chars "Content-Encoding") (hConn : k ≠ chars "Connection") :
    hget (l.foldl (negotiate_step req) hs) k = hget hs k := by
  induction l generalizing hs with
  | nil => rfl
  | cons p rest ih =>
      rw [List.foldl_cons, ih, negotiate_step_other req hs p k hCE hConn]

theorem foldl_negotiate_CE_notin (req : Headers) (l : List (Str × Str))
    (hs : Headers) (hnot : chars "Accept-Encoding" ∉ keys l) :
    hget (l.foldl (negotiate_step req) hs) (chars "Content-Encoding") =
      hget hs (chars "Content-Encoding") := by
  induction l generalizing hs with
  | nil => rfl
  | cons p rest ih =>
      simp only [keys, List.map_cons, List.mem_cons, not_or] at hnot
      rw [List.foldl_cons, ih _ hnot.2,
        negotiate_step_CE_not req hs p (fun hh => hnot.1 hh.symm)]

theorem negotiate_step_CE_none (req hs : Headers) (kv : Str × Str)
    (hd : derivedEncoding req = none) :
    hget (negotiate_step req hs kv) (chars "Content-Encoding") =
      hget hs (chars "Content-Encoding") := by
  by_cases h1 : kv.1 = chars "Accept-Encoding"
  · obtain ⟨k', w⟩ := kv
    unfold negotiate_step
    unfold derivedEncoding at hd
    dsimp only at h1 ⊢
    rw [if_pos h1]
    cases hae : hget req (chars "Accept-Encoding") with
    | none => simp only [hae]
    | some ae =>
        simp only [hae] at hd ⊢
        rw [hd]
  · exact negotiate_step_CE_not req hs kv h1

theorem foldl_negotiate_CE_in (req : Headers) (l : List (Str × Str)) (hs : Headers)
    (hmem : chars "Accept-Encoding" ∈ keys l) :
    hget (l.foldl (negotiate_step req) hs) (chars "Content-Encoding") =
      match derivedEncoding req with
      | some t => some t
      | none => hget hs (chars "Content-Encoding") := by
  induction l generalizing hs with
  | nil => cases hmem
  | cons p rest ih =>
      obtain ⟨k', w⟩ := p
      rw [List.foldl_cons]
      by_cases hmem2 : chars "Accept-Encoding" ∈ keys rest
      · rw [ih _ hmem2]
        cases hd : derivedEncoding req with
        | some t => simp only [hd]
        | none =>
            simp only [hd]
            exact negotiate_step_CE_none req hs (k', w) hd
      · have hk' : k' = chars "Accept-Encoding" := by
          simp only [keys, List.map_cons, List.mem_cons] at hmem
          rcases hmem with h | h
          · exact h.symm
          · exact absurd h hmem2
        rw [foldl_negotiate_CE_notin req rest _ hmem2]
        unfold negotiate_step derivedEncoding
        dsimp only
        rw [if_pos hk']
        cases hae : hget req (chars "Accept-Encoding") with
        | none => simp only [hae]
        | some ae =>
            simp only [hae]
            cases hfind : ((splitChar ',' [] ae).map pyStrip).find?
                (fun e => SERVER_ACCEPTED_ENCODINGS.contains e) with
            | none => simp only [hfind]
            | some enc =>
                simp only [hfind]
                rw [hget_hset, if_pos rfl]

theorem foldl_negotiate_conn_notin (req : Headers) (l : List (Str × Str))
    (hs : Headers) (hnot : chars "Connection" ∉ keys l) :
    hget (l.foldl (negotiate_step req) hs) (chars "Connection") =
      hget hs (chars "Connection") := by
  induction l generalizing hs with
  | nil => rfl
  | cons p rest ih =>
      obtain ⟨k', w⟩ := p
      simp only [keys, List.map_cons, List.mem_cons, not_or] at hnot
      rw [List.foldl_cons, ih _ hnot.2]
      obtain ⟨hne, _⟩ := hnot
      unfold negotiate_step
      dsimp only
      by_cases h1 : k' = chars "Accept-Encoding"
      · rw [if_pos h1]
        cases hae : hget req (chars "Accept-Encoding") with
        | none => simp only [hae]
        | some ae =>
            simp only [hae]
            cases hfind : ((splitChar ',' [] ae).map pyStrip).find?
                (fun e => SERVER_ACCEPTED_ENCODINGS.contains e) with
            | none => simp only [hfind]
            | some enc =>
                simp only [hfind]
                rw [hget_hset,
                  if_neg (by decide : ¬ chars "Connection" = chars "Content-Encoding")]
      · rw [if_neg h1]
        by_cases h2 : k' = chars "Connection"
        · exact absurd h2 (fun hh => Ne.symm hne hh)
        · rw [if_neg h2]

theorem foldl_negotiate_conn (req : Headers) (v : Str) (l : List (Str × Str))
    (hs : Headers) (hmem : chars "Connection" ∈ keys l)
    (huniq : ∀ w, (chars "Connection", w) ∈ l → w = v) :
    hget (l.foldl (negotiate_step req) hs) (chars "Connection") = some v := by
  induction l generalizing hs with
  | nil => cases hmem
  | cons p rest ih =>
      obtain ⟨k', w⟩ := p
      rw [List.foldl_cons]
      by_cases hmem2 : chars "Connection" ∈ keys rest
      · exact ih (negotiate_step req hs (k', w)) hmem2
          (fun w' hw' => huniq w' (List.mem_cons_of_mem _ hw'))
      · have hk' : k' = chars "Connection" := by
          simp only [keys, List.map_cons, List.mem_cons] at hmem
          rcases hmem with h | h
          · exact h.symm
          · exact absurd (by simpa [keys] using h) hmem2
        have hw : w = v := huniq w (by simp [hk'])
        rw [foldl_negotiate_conn_notin req rest _ hmem2]
        subst hk'
        subst hw
        unfold negotiate_step
        dsimp only
        rw [if_neg (by decide : ¬ chars "Connection" = chars "Accept-Encoding"),
          if_pos rfl, hget_hset, if_pos rfl]

theorem grh_other (req add : Headers) (k : Str)
    (hCE : k ≠ chars "Content-Encoding") (hConn : k ≠ chars "Connection") :
    hget (generate_response_headers req add) k = hget (hupdate [] add) k := by
  unfold generate_response_headers
  by_cases h0 : req = [] ∧ add = []
  · rw [if_pos h0]
    obtain ⟨h1, h2⟩ := h0
    subst h2
    rfl
  · rw [if_neg h0]
    dsimp only
    by_cases h1 : req = []
    · rw [if_pos h1]
    · rw [if_neg h1, foldl_negotiate_other req req _ k hCE hConn]

theorem grh_CE_notin (req add : Headers)
    (hnot : chars "Accept-Encoding" ∉ keys req) :
    hget (generate_response_headers req add) (chars "Content-Encoding") =
      hget (hupdate [] add) (chars "Content-Encoding") := by
  unfold generate_response_headers
  by_cases h0 : req = [] ∧ add = []
  · rw [if_pos h0]
    obtain ⟨h1, h2⟩ := h0
    subst h2
    rfl
  · rw [if_neg h0]
    dsimp only
    by_cases h1 : req = []
    · rw [if_pos h1]
    · rw [if_neg h1, foldl_negotiate_CE_notin req req _ hnot]

theorem grh_CE_in (req add : Headers)
    (hmem : chars "Accept-Encoding" ∈ keys req) :
    hget (generate_response_headers req add) (chars "Content-Encoding") =
      match derivedEncoding req with
      | some t => some t
      | none => hget (hupdate [] add) (chars "Content-Encoding") := by
  unfold generate_response_headers
  have hreq : req ≠ [] := by
    intro h
    subst h
    cases hmem
  rw [if_neg (fun hh => hreq hh.1)]
  dsimp only
  rw [if_neg hreq, foldl_negotiate_CE_in req req _ hmem]

theorem grh_conn (req add : Headers) (v : Str) (hnd : (keys req).Nodup)
    (hv : hget req (chars "Connection") = some v) :
    hget (generate_response_headers req add) (chars "Connection") = some v := by
  unfold generate_response_headers
  have hreq : req ≠ [] := by
    intro h
    subst h
    simp [hget] at hv
  rw [if_neg (fun hh => hreq hh.1)]
  dsimp only
  rw [if_neg hreq]
  exact foldl_negotiate_conn req v req _
    ((hget_isSome_iff req (chars "Connection")).mp (by simp [hv]))
    (fun w hw => by
      have := hget_mem_of_nodup req (chars "Connection") w hnd hw
      rw [hv] at this
      exact (Option.some.injEq .. ▸ this :).symm)

/-! ## Wire-splitting lemmas -/

theorem chars_crlf : chars "\r\n" = ['\r', '\n'] := rfl

theorem pyStartswith_append : ∀ (p s : Str), pyStartswith (p ++ s) p = true
  | [], s => by cases s <;> rfl
  | c :: p', s => by simp [pyStartswith, pyStartswith_append p' s]

theorem splitPair_append (a b : Char) (hab : a ≠ b) :
    ∀ (xs acc ys : Str), hasPair a b xs = false →
      splitPair a b acc (xs ++ a :: b :: ys) =
        (acc.reverse ++ xs) :: splitPair a b [] ys
  | [], acc, ys, _ => by
      simp [splitPair]
  | [x], acc, ys, _ => by
      have h1 : ¬(x = a ∧ a = b) := fun hc => hab hc.2
      simp only [List.cons_append, List.nil_append, splitPair, if_neg h1]
      have h2 : (a = a ∧ b = b) := ⟨rfl, rfl⟩
      simp [splitPair, if_pos h2]
  | x :: y :: xs', acc, ys, h => by
      simp only [hasPair, Bool.or_eq_false_iff] at h
      obtain ⟨hl, hr⟩ := h
      have h0 : ¬(x = a ∧ y = b) := by
        intro hc
        simp [hc.1, hc.2] at hl
      rw [List.cons_append, List.cons_append, splitPair, if_neg h0,
        ← List.cons_append, splitPair_append a b hab (y :: xs') (x :: acc) ys hr]
      simp

theorem splitPair_noPair (a b : Char) :
    ∀ (s acc : Str), hasPair a b s = false →
      splitPair a b acc s = [acc.reverse ++ s]
  | [], acc, _ => by simp [splitPair]
  | [c], acc, _ => by simp [splitPair]
  | c :: d :: rest, acc, h => by
      simp only [hasPair, Bool.or_eq_false_iff] at h
      obtain ⟨hl, hr⟩ := h
      have h0 : ¬(c = a ∧ d = b) := by
        intro hc
        simp [hc.1, hc.2] at hl
      simp only [splitPair, if_neg h0]
      rw [splitPair_noPair a b (d :: rest) (c :: acc) hr]
      simp

theorem splitFirstPair_append (a b : Char) (hab : a ≠ b) :
    ∀ (xs acc ys : Str), hasPair a b xs = false →
      splitFirstPair a b acc (xs ++ a :: b :: ys) = some (acc.reverse ++ xs, ys)
  | [], acc, ys, _ => by
      have h2 : (a = a ∧ b = b) := ⟨rfl, rfl⟩
      simp [splitFirstPair, if_pos h2]
  | [x], acc, ys, _ => by
      have h1 : ¬(x = a ∧ a = b) := fun hc => hab hc.2
      have h2 : (a = a ∧ b = b) := ⟨rfl, rfl⟩
      simp only [List.cons_append, List.nil_append, splitFirstPair, if_neg h1]
      simp [splitFirstPair, if_pos h2]
  | x :: y :: xs', acc, ys, h => by
      simp only [hasPair, Bool.or_eq_false_iff] at h
      obtain ⟨hl, hr⟩ := h
      have h0 : ¬(x = a ∧ y = b) := by
        intro hc
        simp [hc.1, hc.2] at hl
      rw [List.cons_append, List.cons_append, splitFirstPair, if_neg h0,
        ← List.cons_append, splitFirstPair_append a b hab (y :: xs') (x :: acc) ys hr]
      simp

/-- The raw text of a sequence of header lines, each terminated by CRLF. -/
def lineJoin (lines : List Str) : Str :=
  (lines.map (fun l => l ++ chars "\r\n")).flatten

theorem splitPair_lineJoin (lines : List Str) (tail : Str)
    (h : ∀ l ∈ lines, hasPair '\r' '\n' l = false) :
    splitPair '\r' '\n' [] (lineJoin lines ++ chars "\r\n" ++ tail) =
      lines ++ [] :: splitPair '\r' '\n' [] tail := by
  induction lines with
  | nil =>
      rw [chars_crlf]
      have := splitPair_append '\r' '\n' (by decide) [] [] tail (by rfl)
      simpa [lineJoin] using this
  | cons l rest ih =>
      have hl : hasPair '\r' '\n' l = false := h l (List.mem_cons_self l rest)
      have hblock : lineJoin (l :: rest) ++ chars "\r\n" ++ tail =
          l ++ '\r' :: '\n' :: (lineJoin rest ++ chars "\r\n" ++ tail) := by
        simp [lineJoin, chars_crlf, List.append_assoc]
      rw [hblock, splitPair_append '\r' '\n' (by decide) l [] _ hl,
        ih (fun l' hl' => h l' (List.mem_cons_of_mem _ hl'))]
      simp

/-- The rendered header line of a name/value pair, `name ++ ": " ++ value`. -/
def renderLine (p : Str × Str) : Str := p.1 ++ ':' :: ' ' :: p.2

theorem headerLoop_render (pairs : List (Str × Str)) (junk : List Str)
    (hs : Headers) (h : ∀ p ∈ pairs, hasPair ':' ' ' p.1 = false) :
    headerLoop (pairs.map renderLine ++ [] :: junk) hs =
      some (hupdate hs pairs) := by
  induction pairs generalizing hs with
  | nil => rfl
  | cons p rest ih =>
      obtain ⟨n, v⟩ := p
      have hline : renderLine (n, v) ≠ [] := by
        simp [renderLine]
      have hsplit : splitFirstPair ':' ' ' [] (renderLine (n, v)) = some (n, v) := by
        have := splitFirstPair_append ':' ' ' (by decide) n [] v
          (h (n, v) (List.mem_cons_self _ _))
        simpa [renderLine] using this
      simp only [List.map_cons, List.cons_append, headerLoop, if_neg hline, hsplit]
      exact ih (hset hs n v) (fun p' hp' => h p' (List.mem_cons_of_mem _ hp'))

/-! ## Serializer and loop lemmas -/

theorem joinHeaders_aux :
    ∀ (hs : Headers) (init : Str),
      hs.foldl (fun acc p => acc ++ p.1 ++ chars ": " ++ p.2 ++ chars "\r\n") init =
        init ++ (hs.map (fun p => p.1 ++ chars ": " ++ p.2 ++ chars "\r\n")).flatten
  | [], init => by simp
  | p :: rest, init => by
      rw [List.foldl_cons, joinHeaders_aux rest _]
      simp [List.append_assoc]

theorem joinHeaders_eq (hs : Headers) :
    joinHeaders hs =
      (hs.map (fun p => p.1 ++ chars ": " ++ p.2 ++ chars "\r\n")).flatten := by
  rw [joinHeaders, joinHeaders_aux]
  rfl

theorem build_response_eq (r : HTTPResponse) :
    build_response r =
      r.protocol ++ chars " " ++ pyStr r.status_code ++ chars " " ++ r.message
        ++ chars "\r\n"
        ++ (r.headers.map (fun p => p.1 ++ chars ": " ++ p.2 ++ chars "\r\n")).flatten
        ++ chars "\r\n" ++ r.body := by
  unfold build_response
  dsimp only
  rw [← joinHeaders_eq]
  by_cases hh : r.headers = []
  · have hne : ¬ r.headers ≠ [] := by simp [hh]
    rw [if_neg hne]
    by_cases hb : r.body = []
    · rw [if_neg (by simp [hb])]
      simp [hh, hb, joinHeaders, List.append_assoc]
    · rw [if_pos hb]
      have hcm : (if r.headers ≠ [] ∧ (hget r.headers (chars "Content-Encoding")).isSome
          then hget r.headers (chars "Content-Encoding") else none) = none := by
        rw [if_neg (fun hc => hne hc.1)]
      rw [hcm]
      simp [hh, joinHeaders, List.append_assoc]
  · rw [if_pos hh]
    by_cases hb : r.body = []
    · rw [if_neg (by simp [hb])]
      simp [hb, List.append_assoc]
    · rw [if_pos hb]
      by_cases hcm : r.headers ≠ [] ∧ (hget r.headers (chars "Content-Encoding")).isSome
      · obtain ⟨ce, hce⟩ := Option.isSome_iff_exists.mp hcm.2
        rw [if_pos hcm, hce]
        have hbody : (match some ce with
            | some cm => if cm ≠ [] then handle_compression r r.body else r.body
            | none => r.body) = r.body := by
          by_cases hcen : ce ≠ [] <;> simp [hcen, handle_compression]
        rw [hbody]
      · rw [if_neg hcm]

theorem hupdate_nil : hupdate [] [] = ([] : Headers) := rfl

theorem hupdate_one (a va : Str) : hupdate [] [(a, va)] = [(a, va)] := rfl

theorem hupdate_two (a va b vb : Str) (hne : a ≠ b) :
    hupdate [] [(a, va), (b, vb)] = [(a, va), (b, vb)] := by
  simp [hupdate, hset, hne]

theorem headerLoop_nodup :
    ∀ (lines : List Str) (hs hs' : Headers), (keys hs).Nodup →
      headerLoop lines hs = some hs' → (keys hs').Nodup
  | [], hs, hs', hnd, h => by
      simp only [headerLoop] at h
      cases h
      exact hnd
  | line :: rest, hs, hs', hnd, h => by
      simp only [headerLoop] at h
      by_cases hl : line = []
      · rw [if_pos hl] at h
        cases h
        exact hnd
      · rw [if_neg hl] at h
        cases hsp : splitFirstPair ':' ' ' [] line with
        | none => rw [hsp] at h; cases h
        | some kv =>
            rw [hsp] at h
            exact headerLoop_nodup rest _ hs'
              (nodup_keys_hset hs kv.1 kv.2 hnd) h

theorem extract_headers_nodup (buf : Str) (hs : Headers)
    (h : extract_headers_from_request buf = some hs) : (keys hs).Nodup := by
  exact headerLoop_nodup _ [] hs (by simp [keys]) h

theorem extract_request_headers_nodup (buf : Str) (req : HTTPRequest)
    (h : extract_http_request_from_request buf = some req) :
    (keys req.headers).Nodup := by
  unfold extract_http_request_from_request at h
  cases hinfo : extract_request_info_from_request buf with
  | none => rw [hinfo] at h; cases h
  | some info =>
      obtain ⟨m, p, pr⟩ := info
      rw [hinfo] at h
      cases hhs : extract_headers_from_request buf with
      | none => rw [hhs] at h; cases h
      | some hs =>
          rw [hhs] at h
          cases h
          exact extract_headers_nodup buf hs hhs

theorem handle_client_loop_cons (directory : Str) (fs : FS) (buf : Str)
    (rest : List Str) (req : HTTPRequest) (hbuf : buf ≠ [])
    (hparse : extract_http_request_from_request buf = some req) :
    handle_client_loop directory fs (buf :: rest) =
      build_response (route directory fs req).1 ::
        (if pyLower ((hget req.headers (chars "Connection")).getD []) = chars "close"
         then []
         else handle_client_loop directory (route directory fs req).2 rest) := by
  conv_lhs => rw [handle_client_loop]
  rw [if_neg hbuf, hparse]

/-! ## Handler-level helper lemmas -/

theorem hget_two_first (a va b vb : Str) : hget [(a, va), (b, vb)] a = some va := by
  simp [hget]

theorem hget_two_second (a va b vb : Str) (hne : a ≠ b) :
    hget [(a, va), (b, vb)] b = some vb := by
  simp [hget, hne]

theorem hget_hupdate_nil (l : Headers) (k : Str) :
    hget (hupdate [] l) k = hget l.reverse k := by
  rw [hget_hupdate]
  cases h : hget l.reverse k <;> simp [hget]

theorem route_echo (dir : Str) (fs : FS) (m proto body suffix : Str)
    (reqHdrs : Headers) :
    route dir fs ⟨m, chars "/echo/" ++ suffix, proto, reqHdrs, body⟩ =
      (handle_echo ⟨m, chars "/echo/" ++ suffix, proto, reqHdrs, body⟩, fs) := by
  unfold route
  dsimp only
  rw [if_pos (pyStartswith_append (chars "/echo/") suffix)]

theorem echo_props (dir : Str) (fs : FS) (m proto body suffix : Str)
    (reqHdrs : Headers) :
    (route dir fs ⟨m, chars "/echo/" ++ suffix, proto, reqHdrs, body⟩).1.status_code = 200
    ∧ (route dir fs ⟨m, chars "/echo/" ++ suffix, proto, reqHdrs, body⟩).1.message = chars "OK"
    ∧ hget (route dir fs ⟨m, chars "/echo/" ++ suffix, proto, reqHdrs, body⟩).1.headers
        (chars "Content-Type") = some (chars "text/plain")
    ∧ hget (route dir fs ⟨m, chars "/echo/" ++ suffix, proto, reqHdrs, body⟩).1.headers
        (chars "Content-Length") = some (pyStr suffix.length)
    ∧ (route dir fs ⟨m, chars "/echo/" ++ suffix, proto, reqHdrs, body⟩).1.body = suffix := by
  rw [route_echo]
  unfold handle_echo make_response
  dsimp only
  rw [List.drop_left]
  refine ⟨rfl, rfl, ?_, ?_, rfl⟩
  · rw [grh_other _ _ _ (by decide) (by decide),
      hupdate_two _ _ _ _ (by decide), hget_two_first]
  · rw [grh_other _ _ _ (by decide) (by decide),
      hupdate_two _ _ _ _ (by decide), hget_two_second _ _ _ _ (by decide)]

/-! ## Claim theorems -/

/-- C1: for every parsed request with method `GET` and path `/echo/<suffix>`,
routing reaches the echo handler and the response has status 200, reason
`OK`, `Content-Type: text/plain`, `Content-Length` equal to the decimal
length of the suffix, and body equal to the suffix; in particular
`GET /echo/hello` yields `200 OK`, `Content-Type: text/plain`,
`Content-Length: 5` and body `hello`. -/
theorem C1_echo (dir suffix proto body : Str) (reqHdrs : Headers) (fs : FS) :
    ((route dir fs ⟨chars "GET", chars "/echo/" ++ suffix, proto, reqHdrs, body⟩).1.status_code
        = 200
      ∧ (route dir fs ⟨chars "GET", chars "/echo/" ++ suffix, proto, reqHdrs, body⟩).1.message
        = chars "OK"
      ∧ hget (route dir fs ⟨chars "GET", chars "/echo/" ++ suffix, proto, reqHdrs,
          body⟩).1.headers (chars "Content-Type") = some (chars "text/plain")
      ∧ hget (route dir fs ⟨chars "GET", chars "/echo/" ++ suffix, proto, reqHdrs,
          body⟩).1.headers (chars "Content-Length") = some (pyStr suffix.length)
      ∧ (route dir fs ⟨chars "GET", chars "/echo/" ++ suffix, proto, reqHdrs, body⟩).1.body
        = suffix)
    ∧ ((route dir fs ⟨chars "GET", chars "/echo/hello", chars "HTTP/1.1", [],
          []⟩).1.status_code = 200
      ∧ (route dir fs ⟨chars "GET", chars "/echo/hello", chars "HTTP/1.1", [],
          []⟩).1.message = chars "OK"
      ∧ hget (route dir fs ⟨chars "GET", chars "/echo/hello", chars "HTTP/1.1", [],
          []⟩).1.headers (chars "Content-Type") = some (chars "text/plain")
      ∧ hget (route dir fs ⟨chars "GET", chars "/echo/hello", chars "HTTP/1.1", [],
          []⟩).1.headers (chars "Content-Length") = some (chars "5")
      ∧ (route dir fs ⟨chars "GET", chars "/echo/hello", chars "HTTP/1.1", [],
          []⟩).1.body = chars "hello") := by
  constructor
  · exact echo_props dir fs (chars "GET") proto body suffix reqHdrs
  · have hp : chars "/echo/hello" = chars "/echo/" ++ chars "hello" := by decide
    have h5 : pyStr (chars "hello").length = chars "5" := by decide
    rw [hp]
    obtain ⟨h1, h2, h3, h4, h6⟩ :=
      echo_props dir fs (chars "GET") (chars "HTTP/1.1") [] (chars "hello") []
    exact ⟨h1, h2, h3, h5 ▸ h4, h6⟩

/-- C4 counterexample: `GET /echo/é` produces `Content-Length: 1` (the
character count) while the UTF-8 encoding of the body is 2 bytes, so the
header does not equal the decimal byte length of the body as written to
the wire. -/
theorem C4_counterexample :
    hget (handle_echo ⟨chars "GET", chars "/echo/é", chars "HTTP/1.1", [], []⟩).headers
        (chars "Content-Length") = some (chars "1")
    ∧ utf8Len (handle_echo ⟨chars "GET", chars "/echo/é", chars "HTTP/1.1", [], []⟩).body = 2
    ∧ (handle_echo ⟨chars "GET", chars "/echo/é", chars "HTTP/1.1", [], []⟩).body ≠ []
    ∧ chars "1" ≠ pyStr 2 := by
  decide

/-- C4 (amended): for the echo, user-agent and file-GET handlers the
`Content-Length` header equals the decimal number of characters of the
response body (Python `len`), which agrees with the UTF-8 wire byte length
only when the body is ASCII. -/
theorem C4_content_length (m proto body suffix dir f content proto2 body2 proto3 body3 : Str)
    (reqHdrs reqHdrs2 reqHdrs3 : Headers) (fs0 : FS) :
    hget (handle_echo ⟨m, chars "/echo/" ++ suffix, proto, reqHdrs, body⟩).headers
        (chars "Content-Length")
      = some (pyStr (handle_echo ⟨m, chars "/echo/" ++ suffix, proto, reqHdrs,
          body⟩).body.length)
    ∧ hget (handle_user_agent ⟨m, chars "/user-agent", proto2, reqHdrs2, body2⟩).headers
        (chars "Content-Length")
      = some (pyStr (handle_user_agent ⟨m, chars "/user-agent", proto2, reqHdrs2,
          body2⟩).body.length)
    ∧ hget (handle_get_files ⟨chars "GET", chars "/files/" ++ f, proto3, reqHdrs3, body3⟩
          dir (hset fs0 (dir ++ chars "/" ++ f) content)).headers (chars "Content-Length")
      = some (pyStr (handle_get_files ⟨chars "GET", chars "/files/" ++ f, proto3, reqHdrs3,
          body3⟩ dir (hset fs0 (dir ++ chars "/" ++ f) content)).body.length) := by
  refine ⟨?_, ?_, ?_⟩
  · unfold handle_echo make_response
    dsimp only
    rw [grh_other _ _ _ (by decide) (by decide),
      hupdate_two _ _ _ _ (by decide), hget_two_second _ _ _ _ (by decide)]
  · unfold handle_user_agent make_response
    dsimp only
    rw [grh_other _ _ _ (by decide) (by decide),
      hupdate_two _ _ _ _ (by decide), hget_two_second _ _ _ _ (by decide)]
  · unfold handle_get_files
    dsimp only
    rw [List.drop_left, hget_hset, if_pos rfl]
    dsimp only [make_response]
    rw [grh_other _ _ _ (by decide) (by decide),
      hupdate_two _ _ _ _ (by decide), hget_two_second _ _ _ _ (by decide)]

/-- C5: serialization emits exactly the status line
`<protocol> <code> <reason>\r\n`, then each header as `<name>: <value>\r\n`
in map order, then one blank line, then the stored body unchanged — no
automatic `Content-Length`, and the body is not transformed even when a
`Content-Encoding` header is present. -/
theorem C5_build_response (r : HTTPResponse) :
    build_response r =
      r.protocol ++ chars " " ++ pyStr r.status_code ++ chars " " ++ r.message
        ++ chars "\r\n"
        ++ (r.headers.map (fun p => p.1 ++ chars ": " ++ p.2 ++ chars "\r\n")).flatten
        ++ chars "\r\n" ++ r.body := by
  rw [build_response_eq]

/-- C3 counterexample: the handler supplies `Content-Encoding: br`, the
request's `Accept-Encoding: gzip` scan overwrites it with `gzip`, so the
handler-supplied value does not win. -/
theorem C3_counterexample :
    hget (generate_response_headers [(chars "Accept-Encoding", chars "gzip")]
        [(chars "Content-Encoding", chars "br")]) (chars "Content-Encoding")
      = some (chars "gzip")
    ∧ some (chars "gzip") ≠ some (chars "br") := by
  decide

/-- C3 (amended): the header map starts from the handler-supplied headers
and keeps the handler's value for every name other than `Content-Encoding`
and `Connection`; for those two names the request-header scan overwrites
whatever the handler supplied whenever it derives a value. -/
theorem C3_additional_headers (req add : Headers) (k vk : Str)
    (hnd : (keys add).Nodup) (hk : hget add k = some vk)
    (hCE : k ≠ chars "Content-Encoding") (hConn : k ≠ chars "Connection") :
    hget (generate_response_headers req add) k = some vk := by
  rw [grh_other req add k hCE hConn, hget_hupdate_nil,
    hget_reverse_of_nodup add k hnd, hk]

theorem C3_witness :
    hget (generate_response_headers
        [(chars "Accept-Encoding", chars "gzip"), (chars "Connection", chars "close")]
        [(chars "Content-Type", chars "text/plain")]) (chars "Content-Type")
      = some (chars "text/plain") :=
  C3_additional_headers
    [(chars "Accept-Encoding", chars "gzip"), (chars "Connection", chars "close")]
    [(chars "Content-Type", chars "text/plain")]
    (chars "Content-Type") (chars "text/plain")
    (by decide) (by decide) (by decide) (by decide)

/-- C6: when the request's `Accept-Encoding` value, split on commas and
trimmed, has a first token in the supported list (`["gzip"]`), the
negotiated headers map `Content-Encoding` to that first matching token in
client order, whatever the handler-supplied headers were. -/
theorem C6_content_encoding (req add : Headers) (v t : Str)
    (hv : hget req (chars "Accept-Encoding") = some v)
    (ht : ((splitChar ',' [] v).map pyStrip).find?
        (fun e => SERVER_ACCEPTED_ENCODINGS.contains e) = some t) :
    hget (generate_response_headers req add) (chars "Content-Encoding") = some t := by
  have hmem : chars "Accept-Encoding" ∈ keys req :=
    (hget_isSome_iff req _).mp (by simp [hv])
  rw [grh_CE_in req add hmem]
  unfold derivedEncoding
  simp only [hv, ht]

theorem C6_witness :
    hget (generate_response_headers [(chars "Accept-Encoding", chars "br, gzip")] [])
        (chars "Content-Encoding") = some (chars "gzip") :=
  C6_content_encoding [(chars "Accept-Encoding", chars "br, gzip")] []
    (chars "br, gzip") (chars "gzip") (by decide) (by decide)

/-- C10: token matching is case-sensitive exact equality after trimming;
provided the handler did not itself supply a `Content-Encoding`, the
negotiated headers carry one exactly when some trimmed `Accept-Encoding`
token is the literal string `gzip` (so `GZIP` or `gzip;q=1` never match). -/
theorem C10_exact_match (req add : Headers)
    (hadd : hget add (chars "Content-Encoding") = none) :
    ((hget (generate_response_headers req add) (chars "Content-Encoding")).isSome = true
      ↔ ∃ v, hget req (chars "Accept-Encoding") = some v ∧
          chars "gzip" ∈ (splitChar ',' [] v).map pyStrip) := by
  have hupd : hget (hupdate [] add) (chars "Content-Encoding") = none := by
    rw [hget_hupdate_nil, (hget_none_iff _ _).mpr]
    intro hmem
    refine (hget_none_iff add _).mp hadd ?_
    have : keys add.reverse = (keys add).reverse := by
      simp [keys, List.map_reverse]
    rw [this, List.mem_reverse] at hmem
    exact hmem
  by_cases hmem : chars "Accept-Encoding" ∈ keys req
  · rw [grh_CE_in req add hmem]
    constructor
    · intro h
      cases hd : derivedEncoding req with
      | none =>
          rw [hd] at h
          simp only [hupd, Option.isSome_none] at h
          cases h
      | some t =>
          unfold derivedEncoding at hd
          cases hv : hget req (chars "Accept-Encoding") with
          | none => rw [hv] at hd; cases hd
          | some v =>
              rw [hv] at hd
              refine ⟨v, rfl, ?_⟩
              have hmem2 := List.mem_of_find?_eq_some hd
              have hp := List.find?_some hd
              have ht : t = chars "gzip" := by
                simpa [SERVER_ACCEPTED_ENCODINGS] using hp
              rw [← ht]
              exact hmem2
    · rintro ⟨v, hv, hgz⟩
      have hds : (derivedEncoding req).isSome = true := by
        unfold derivedEncoding
        rw [hv, List.find?_isSome]
        exact ⟨chars "gzip", hgz, by decide⟩
      cases hd : derivedEncoding req with
      | none => rw [hd] at hds; cases hds
      | some t => simp
  · rw [grh_CE_notin req add hmem, hupd]
    constructor
    · intro h
      cases h
    · rintro ⟨v, hv, _⟩
      exact absurd ((hget_isSome_iff req _).mp (by simp [hv])) hmem

theorem C10_witness :
    ((hget (generate_response_headers
          [(chars "Accept-Encoding", chars "GZIP, gzip;q=1")] [])
        (chars "Content-Encoding")).isSome = true
      ↔ ∃ v, hget [(chars "Accept-Encoding", chars "GZIP, gzip;q=1")]
            (chars "Accept-Encoding") = some v ∧
          chars "gzip" ∈ (splitChar ',' [] v).map pyStrip) :=
  C10_exact_match [(chars "Accept-Encoding", chars "GZIP, gzip;q=1")] [] (by decide)

/-- C7: for a raw request whose header block consists of lines each holding
exactly one `": "` separator (name and value free of `": "` and of CRLF),
header extraction parses exactly the declared pairs — a duplicate name's
later occurrence overwrites the earlier one — and nothing after the first
empty line is parsed as a header (the parse does not depend on `tail`). -/
theorem C7_header_roundtrip (reqline tail : Str) (pairs : List (Str × Str))
    (hreq : hasPair '\r' '\n' reqline = false)
    (hlines : ∀ p ∈ pairs, hasPair '\r' '\n' (renderLine p) = false ∧
        hasPair ':' ' ' p.1 = false ∧ hasPair ':' ' ' p.2 = false) :
    extract_headers_from_request
        (reqline ++ chars "\r\n" ++ lineJoin (pairs.map renderLine)
          ++ chars "\r\n" ++ tail)
      = some (hupdate [] pairs)
    ∧ ∀ p ∈ pairs, hget (hupdate [] pairs) p.1 = hget pairs.reverse p.1 := by
  have hcr : ∀ l ∈ pairs.map renderLine, hasPair '\r' '\n' l = false := by
    intro l hl
    obtain ⟨p, hp, rfl⟩ := List.mem_map.mp hl
    exact (hlines p hp).1
  have hsplit : splitPair '\r' '\n' []
      (reqline ++ chars "\r\n" ++ lineJoin (pairs.map renderLine)
        ++ chars "\r\n" ++ tail)
      = reqline :: (pairs.map renderLine ++ [] :: splitPair '\r' '\n' [] tail) := by
    have h1 := splitPair_append '\r' '\n' (by decide) reqline []
      (lineJoin (pairs.map renderLine) ++ chars "\r\n" ++ tail) hreq
    have h2 := splitPair_lineJoin (pairs.map renderLine) tail hcr
    have h0 : (reqline ++ chars "\r\n" ++ lineJoin (pairs.map renderLine)
          ++ chars "\r\n" ++ tail)
        = reqline ++ '\r' :: '\n' ::
            (lineJoin (pairs.map renderLine) ++ chars "\r\n" ++ tail) := by
      simp [chars_crlf, List.append_assoc]
    rw [h0, h1, h2]
    simp
  constructor
  · unfold extract_headers_from_request
    rw [hsplit, List.drop_one, List.tail_cons,
      headerLoop_render pairs _ [] (fun p hp => (hlines p hp).2.1)]
  · intro p _
    exact hget_hupdate_nil pairs p.1

theorem C7_witness :
    (extract_headers_from_request
        (chars "GET / HTTP/1.1" ++ chars "\r\n"
          ++ lineJoin ([(chars "A", chars "1"), (chars "A", chars "2"),
              (chars "B", chars "x")].map renderLine)
          ++ chars "\r\n" ++ chars "C: zz")
      = some (hupdate [] [(chars "A", chars "1"), (chars "A", chars "2"),
          (chars "B", chars "x")])
    ∧ ∀ p ∈ [(chars "A", chars "1"), (chars "A", chars "2"), (chars "B", chars "x")],
        hget (hupdate [] [(chars "A", chars "1"), (chars "A", chars "2"),
            (chars "B", chars "x")]) p.1
          = hget [(chars "A", chars "1"), (chars "A", chars "2"),
              (chars "B", chars "x")].reverse p.1) :=
  C7_header_roundtrip (chars "GET / HTTP/1.1") (chars "C: zz")
    [(chars "A", chars "1"), (chars "A", chars "2"), (chars "B", chars "x")]
    (by decide) (by decide)

/-- C8: handling `POST /files/f` with body `b` stores `b` verbatim at
`<dir>/f` (overwriting) and returns 201 with empty body; a subsequent
`GET /files/f` on the resulting filesystem returns `200 OK` with body `b`. -/
theorem C8_post_then_get (dir f b proto1 proto2 body2 : Str)
    (hdrs1 hdrs2 : Headers) (fs : FS) :
    (handle_files ⟨chars "POST", chars "/files/" ++ f, proto1, hdrs1, b⟩ dir fs).2
      = hset fs (dir ++ chars "/" ++ f) b
    ∧ (handle_files ⟨chars "POST", chars "/files/" ++ f, proto1, hdrs1, b⟩ dir
        fs).1.status_code = 201
    ∧ (handle_files ⟨chars "POST", chars "/files/" ++ f, proto1, hdrs1, b⟩ dir
        fs).1.body = []
    ∧ (handle_files ⟨chars "GET", chars "/files/" ++ f, proto2, hdrs2, body2⟩ dir
        (hset fs (dir ++ chars "/" ++ f) b)).1.status_code = 200
    ∧ (handle_files ⟨chars "GET", chars "/files/" ++ f, proto2, hdrs2, body2⟩ dir
        (hset fs (dir ++ chars "/" ++ f) b)).1.message = chars "OK"
    ∧ (handle_files ⟨chars "GET", chars "/files/" ++ f, proto2, hdrs2, body2⟩ dir
        (hset fs (dir ++ chars "/" ++ f) b)).1.body = b := by
  have hpost : handle_files ⟨chars "POST", chars "/files/" ++ f, proto1, hdrs1, b⟩ dir fs
      = handle_post_files ⟨chars "POST", chars "/files/" ++ f, proto1, hdrs1, b⟩ dir fs := by
    unfold handle_files
    dsimp only
    rw [if_neg (by decide : ¬ chars "POST" = chars "GET")]
  have hget' : handle_files ⟨chars "GET", chars "/files/" ++ f, proto2, hdrs2, body2⟩ dir
        (hset fs (dir ++ chars "/" ++ f) b)
      = (handle_get_files ⟨chars "GET", chars "/files/" ++ f, proto2, hdrs2, body2⟩ dir
          (hset fs (dir ++ chars "/" ++ f) b),
         hset fs (dir ++ chars "/" ++ f) b) := by
    unfold handle_files
    dsimp only
    rw [if_pos rfl]
  have hgetfile : handle_get_files ⟨chars "GET", chars "/files/" ++ f, proto2, hdrs2,
        body2⟩ dir (hset fs (dir ++ chars "/" ++ f) b)
      = make_response 200 (chars "OK")
          (generate_response_headers hdrs2
            [(chars "Content-Type", chars "application/octet-stream"),
             (chars "Content-Length", pyStr b.length)]) b (chars "HTTP/1.1") := by
    unfold handle_get_files
    dsimp only
    rw [List.drop_left, hget_hset, if_pos rfl]
  rw [hpost, hget', hgetfile]
  unfold handle_post_files
  dsimp only
  rw [List.drop_left]
  exact ⟨rfl, rfl, rfl, rfl, rfl, rfl⟩

/-- C9: a raw buffer whose first line has fewer than three space-separated
tokens fails request parsing (the modelled `IndexError`), and the
connection loop writes no response bytes for it and closes the connection
(no further buffer is processed). -/
theorem C9_malformed_request_line (dir : Str) (fs : FS) (request : Str)
    (rest : List Str)
    (h : (splitChar ' ' [] (firstLineOf request)).length < 3) :
    extract_http_request_from_request request = none
    ∧ handle_client_loop dir fs (request :: rest) = [] := by
  have hinfo : extract_request_info_from_request request = none := by
    unfold extract_request_info_from_request
    rcases hsp : splitChar ' ' [] (firstLineOf request) with _ | ⟨a, _ | ⟨b, _ | ⟨c, t⟩⟩⟩
    · rfl
    · rfl
    · rfl
    · rw [hsp] at h
      simp at h
      omega
  have hext : extract_http_request_from_request request = none := by
    unfold extract_http_request_from_request
    rw [hinfo]
  refine ⟨hext, ?_⟩
  rw [handle_client_loop]
  by_cases hreq : request = []
  · rw [if_pos hreq]
  · rw [if_neg hreq, hext]

theorem C9_witness :
    extract_http_request_from_request (chars "GET /\r\n\r\n") = none
    ∧ handle_client_loop (chars "d") [] [chars "GET /\r\n\r\n"] = [] :=
  C9_malformed_request_line (chars "d") [] (chars "GET /\r\n\r\n") [] (by decide)

theorem route_conn (dir : Str) (fs : FS) (req : HTTPRequest) (v : Str)
    (hnd : (keys req.headers).Nodup)
    (hv : hget req.headers (chars "Connection") = some v) :
    hget (route dir fs req).1.headers (chars "Connection") = some v := by
  unfold route
  by_cases h1 : pyStartswith req.path (chars "/echo/") = true
  · rw [if_pos h1]
    dsimp only [handle_echo, make_response]
    exact grh_conn _ _ v hnd hv
  · rw [if_neg h1]
    by_cases h2 : req.path = chars "/user-agent"
    · rw [if_pos h2]
      dsimp only [handle_user_agent, make_response]
      exact grh_conn _ _ v hnd hv
    · rw [if_neg h2]
      by_cases h3 : pyStartswith req.path (chars "/files/") = true
      · rw [if_pos h3]
        unfold handle_files
        by_cases h4 : req.method = chars "GET"
        · rw [if_pos h4]
          unfold handle_get_files
          dsimp only
          cases hf : hget fs (dir ++ chars "/"
              ++ List.drop (chars "/files/").length req.path) with
          | none =>
              simp only [hf]
              dsimp only [make_response]
              exact grh_conn _ _ v hnd hv
          | some content =>
              simp only [hf]
              dsimp only [make_response]
              exact grh_conn _ _ v hnd hv
        · rw [if_neg h4]
          dsimp only [handle_post_files, make_response]
          exact grh_conn _ _ v hnd hv
      · rw [if_neg h3]
        by_cases h5 : req.path = chars "/"
        · rw [if_pos h5]
          dsimp only [handle_root, make_response]
          exact grh_conn _ _ v hnd hv
        · rw [if_neg h5]
          dsimp only [make_response]
          exact grh_conn _ _ v hnd hv

/-- C2: on any exchange of a connection, if the parsed request's
`Connection` value lowercases to `close`, the routed response carries a
`Connection` header with the request's value verbatim and the loop stops
after writing that single response; if the request has no `Connection`
header, the loop writes the response and goes on to await the next buffer
on the same connection. -/
theorem C2_connection_close (dir : Str) (fs : FS) (buf : Str) (rest : List Str)
    (req : HTTPRequest)
    (hparse : extract_http_request_from_request buf = some req) :
    (∀ v, hget req.headers (chars "Connection") = some v →
        pyLower v = chars "close" →
        hget (route dir fs req).1.headers (chars "Connection") = some v ∧
        handle_client_loop dir fs (buf :: rest) =
          [build_response (route dir fs req).1])
    ∧ (hget req.headers (chars "Connection") = none →
        handle_client_loop dir fs (buf :: rest) =
          build_response (route dir fs req).1 ::
            handle_client_loop dir (route dir fs req).2 rest) := by
  have hnd := extract_request_headers_nodup buf req hparse
  have hbuf : buf ≠ [] := by
    intro hh
    subst hh
    rw [show extract_http_request_from_request [] = none from rfl] at hparse
    cases hparse
  constructor
  · intro v hv hlow
    refine ⟨route_conn dir fs req v hnd hv, ?_⟩
    rw [handle_client_loop_cons dir fs buf rest req hbuf hparse, hv]
    rw [if_pos (by simpa using hlow)]
  · intro hnone
    rw [handle_client_loop_cons dir fs buf rest req hbuf hparse, hnone]
    rw [if_neg (by decide)]

theorem C2_witness :
    (hget (route (chars "d") []
          ⟨chars "GET", chars "/", chars "HTTP/1.1",
            [(chars "Connection", chars "close")], []⟩).1.headers (chars "Connection")
        = some (chars "close")
      ∧ handle_client_loop (chars "d") []
          [chars "GET / HTTP/1.1\r\nConnection: close\r\n\r\n",
           chars "GET / HTTP/1.1\r\n\r\n"]
        = [build_response (route (chars "d") []
            ⟨chars "GET", chars "/", chars "HTTP/1.1",
              [(chars "Connection", chars "close")], []⟩).1])
    ∧ (handle_client_loop (chars "d") [] [chars "GET / HTTP/1.1\r\n\r\n"]
        = build_response (route (chars "d") []
            ⟨chars "GET", chars "/", chars "HTTP/1.1", [], []⟩).1 ::
          handle_client_loop (chars "d")
            (route (chars "d") []
              ⟨chars "GET", chars "/", chars "HTTP/1.1", [], []⟩).2 []) :=
  ⟨(C2_connection_close (chars "d") []
      (chars "GET / HTTP/1.1\r\nConnection: close\r\n\r\n")
      [chars "GET / HTTP/1.1\r\n\r\n"]
      ⟨chars "GET", chars "/", chars "HTTP/1.1",
        [(chars "Connection", chars "close")], []⟩
      (by decide)).1 (chars "close") (by decide) (by decide),
   (C2_connection_close (chars "d") [] (chars "GET / HTTP/1.1\r\n\r\n") []
      ⟨chars "GET", chars "/", chars "HTTP/1.1", [], []⟩
      (by decide)).2 (by decide)⟩

end HTTPServer
